import Mathlib

/-!
Verification of the durable task-download service (Go sources:
`internal/model/types.go`, `internal/storage/store.go`, `internal/util/id.go`,
the manager package and the HTTP facade).

The Go code is shallowly embedded: pure functions become Lean functions,
the stateful worker/requeue code becomes either explicit state-passing
functions or a labelled transition relation over the persisted task state.
Machine integers (Go `int`, `int64`) are modelled as `Nat`/`Int`; 32-bit
arithmetic in SHA-256 carries explicit `% 2^32` reductions.
-/

namespace TaskService

/- ----------------------------------------------------------------
Data model, from internal/model/types.go
---------------------------------------------------------------- -/

/-- model.TaskID (types.go line 13): a string identifier. -/
abbrev TaskID := String

/-- model.TaskStatus (types.go lines 16-26). -/
inductive TaskStatus where
  | pending
  | running
  | completed
  | failed
deriving DecidableEq, Repr

/-- model.ItemStatus (types.go lines 28-39). -/
inductive ItemStatus where
  | queued
  | downloading
  | done
  | error
deriving DecidableEq, Repr

/-- model.Item (types.go lines 50-60).  `sizeExpected`/`sizeDownloaded` are Go
int64, modelled as `Int`; the optional timestamps are modelled as
`Option Nat` (wall-clock values are opaque to every claim). -/
structure Item where
  url : String
  fileName : String
  status : ItemStatus
  attempts : Nat
  errorMessage : String
  sizeExpected : Int
  sizeDownloaded : Int
  startedAt : Option Nat
  completedAt : Option Nat
deriving DecidableEq, Repr

/-- model.Task (types.go lines 42-47).  `createdAt` is an opaque timestamp. -/
structure Task where
  id : TaskID
  createdAt : Nat
  status : TaskStatus
  items : List Item
deriving DecidableEq, Repr

/-- The in-memory task map `Store.tasks : map[model.TaskID]*model.Task`
(store.go line 19), modelled extensionally as a function. -/
abbrev TaskMap := TaskID → Option Task

/-- The empty map `make(map[model.TaskID]*model.Task)` (store.go line 46). -/
def emptyTaskMap : TaskMap := fun _ => none

/-- Map insertion `s.tasks[k] = t` (store.go lines 108, 114, 165, 173). -/
def mapInsert (m : TaskMap) (k : TaskID) (t : Task) : TaskMap :=
  fun k' => if k' = k then some t else m k'

/- ----------------------------------------------------------------
Durable store: WAL records, replay, operations
(internal/storage/store.go)
---------------------------------------------------------------- -/

/-- One decoded line of `state.wal` as seen by the replay loop in
`loadSnapshotAndWal` (store.go lines 92-117).  The JSON decoder either
yields a well-formed `walRecord` or fails:
* `upsertRec t`: `{"type":"upsert_task","data":{"task":t}}` whose data
  unmarshals into `recordUpsertTask` (lines 104-109);
* `updateRec id t`: `{"type":"update_task","data":{"task_id":id,"task":t}}`
  whose data unmarshals into `recordUpdateTask` (lines 110-115);
* `otherType`: a well-formed record whose `type` matches neither switch arm
  (skipped: the `switch` has no default);
* `badData`: a well-formed record whose `data` fails the inner
  `json.Unmarshal` (skipped: the `if err == nil` guard);
* `malformed`: a line the decoder cannot parse (truncated/garbage tail) —
  `dec.Decode` returns an error and the loop breaks (lines 97-101). -/
inductive WalLine where
  | upsertRec (t : Task)
  | updateRec (id : TaskID) (t : Task)
  | otherType
  | badData
  | malformed
deriving DecidableEq

/-- Whether the JSON decoder succeeds on this line (decides the `break` in
store.go lines 97-101). -/
def WalLine.wellFormed : WalLine → Bool
  | .malformed => false
  | _ => true

/-- The effect of one well-formed WAL record on the in-memory map
(store.go lines 103-116): `upsert_task` writes at `r.Task.ID`,
`update_task` writes at `r.TaskID`; other lines leave the map unchanged. -/
def applyWalLine (m : TaskMap) : WalLine → TaskMap
  | .upsertRec t => mapInsert m t.id t
  | .updateRec id t => mapInsert m id t
  | .otherType => m
  | .badData => m
  | .malformed => m

/-- The replay loop of `loadSnapshotAndWal` (store.go lines 94-117): decode
records in order, apply each, and stop at the first decode failure. -/
def replayWal (m : TaskMap) : List WalLine → TaskMap
  | [] => m
  | line :: rest =>
    if line.wellFormed then replayWal (applyWalLine m line) rest
    else m

/-- Outcome of reading `state.snapshot.json` (store.go lines 83-89):
the file may be unreadable (`absent`), readable but not parseable as the
expected map (`parseError`), or parse as a map. -/
inductive SnapshotRead where
  | absent
  | parseError
  | ok (m : TaskMap)

/-- Store.loadSnapshotAndWal (store.go lines 81-120): install the snapshot
if it parses (otherwise `s.tasks` keeps the empty map made in `NewStore`,
line 46), then replay the WAL. -/
def loadSnapshotAndWal (snap : SnapshotRead) (wal : List WalLine) : TaskMap :=
  let init : TaskMap :=
    match snap with
    | .ok m => m
    | .absent => emptyTaskMap
    | .parseError => emptyTaskMap
  replayWal init wal

/-- An in-memory mutation of the store issued during normal operation:
`UpsertTask` (store.go lines 162-167) or `UpdateTask` (lines 170-175). -/
inductive StoreOp where
  | upsert (t : Task)
  | update (t : Task)
deriving DecidableEq

/-- In-memory effect of `UpsertTask`/`UpdateTask`: both execute
`s.tasks[t.ID] = t` (store.go lines 165 and 173). -/
def applyStoreOp (m : TaskMap) : StoreOp → TaskMap
  | .upsert t => mapInsert m t.id t
  | .update t => mapInsert m t.id t

/-- The WAL record appended by a successful `UpsertTask`/`UpdateTask`
(store.go lines 166 and 174). -/
def walRecordOf : StoreOp → WalLine
  | .upsert t => .upsertRec t
  | .update t => .updateRec t.id t

/-- Running a sequence of successful store operations in memory. -/
def runStoreOps (m : TaskMap) (ops : List StoreOp) : TaskMap :=
  ops.foldl applyStoreOp m

/-- The WAL contents produced by a sequence of successful operations
(records appear in call order; the store serializes writers). -/
def walOf (ops : List StoreOp) : List WalLine :=
  ops.map walRecordOf

/-- The task a store operation carries. -/
def StoreOp.task : StoreOp → Task
  | .upsert t => t
  | .update t => t

/-- Last write to key `k` in an operation sequence (last-writer-wins). -/
def lastWrite (ops : List StoreOp) (k : TaskID) : Option Task :=
  ops.foldl (fun acc op => if op.task.id = k then some op.task else acc) none

/- ----------------------------------------------------------------
Store lemmas (claims C2 and C9)
---------------------------------------------------------------- -/

theorem lastWrite_foldl (k : TaskID) (ops : List StoreOp) (a : Option Task) :
    ops.foldl (fun acc op => if op.task.id = k then some op.task else acc) a
      = (lastWrite ops k).elim a some := by
  induction ops generalizing a with
  | nil => rfl
  | cons op ops ih =>
    simp only [List.foldl_cons, lastWrite] at *
    rw [ih, ih (if op.task.id = k then some op.task else none)]
    cases h : (ops.foldl (fun acc op => if op.task.id = k then some op.task else acc)
        none) with
    | some t => rfl
    | none =>
      by_cases hk : op.task.id = k <;> simp [hk]

theorem lastWrite_cons (k : TaskID) (op : StoreOp) (ops : List StoreOp) :
    lastWrite (op :: ops) k
      = (lastWrite ops k).elim (if op.task.id = k then some op.task else none) some := by
  simp only [lastWrite, List.foldl_cons]
  exact lastWrite_foldl k ops _

theorem lastWrite_append (k : TaskID) (l₁ l₂ : List StoreOp) :
    lastWrite (l₁ ++ l₂) k = (lastWrite l₂ k).elim (lastWrite l₁ k) some := by
  simp only [lastWrite, List.foldl_append]
  exact lastWrite_foldl k l₂ _

theorem applyStoreOp_key (m : TaskMap) (op : StoreOp) (k : TaskID) :
    applyStoreOp m op k = if op.task.id = k then some op.task else m k := by
  cases op with
  | upsert t =>
    show (if k = t.id then some t else m k) = if t.id = k then some t else m k
    by_cases h : t.id = k
    · simp [h]
    · rw [if_neg h, if_neg (fun hh => h hh.symm)]
  | update t =>
    show (if k = t.id then some t else m k) = if t.id = k then some t else m k
    by_cases h : t.id = k
    · simp [h]
    · rw [if_neg h, if_neg (fun hh => h hh.symm)]

/-- The in-memory map after a sequence of successful store operations is the
last write per key, falling back to the starting map. -/
theorem runStoreOps_eq_lastWrite (ops : List StoreOp) (m : TaskMap) (k : TaskID) :
    runStoreOps m ops k = (lastWrite ops k).elim (m k) some := by
  induction ops generalizing m with
  | nil => rfl
  | cons op ops ih =>
    simp only [runStoreOps, List.foldl_cons] at *
    rw [ih, lastWrite_cons]
    cases h : lastWrite ops k with
    | some t => rfl
    | none =>
      simp only [Option.elim]
      rw [applyStoreOp_key]
      by_cases hk : op.task.id = k <;> simp [hk]

/-- Replaying the records a sequence of operations wrote is the same as
re-running the operations: each record re-executes `s.tasks[key] = task`. -/
theorem replayWal_walOf (ops : List StoreOp) (m : TaskMap) :
    replayWal m (walOf ops) = runStoreOps m ops := by
  induction ops generalizing m with
  | nil => rfl
  | cons op ops ih =>
    cases op with
    | upsert t =>
      simpa [walOf, replayWal, WalLine.wellFormed, runStoreOps, applyWalLine,
        applyStoreOp] using ih _
    | update t =>
      simpa [walOf, replayWal, WalLine.wellFormed, runStoreOps, applyWalLine,
        applyStoreOp] using ih _

/-- C2: for any sequence of successful UpsertTask/UpdateTask calls, restarting
the store — installing as snapshot the map as of any earlier point (the map
after the first `n` operations, for arbitrary `n`) and then replaying the full
WAL in order — yields exactly the in-memory map as last written, with
last-writer-wins per task id; moreover an `upsert_task` record and an
`update_task` record for the same task have identical effect on replay. -/
theorem c2_restart_replay_last_writer_wins :
    (∀ (ops : List StoreOp) (n : Nat),
      loadSnapshotAndWal (.ok (runStoreOps emptyTaskMap (ops.take n))) (walOf ops)
        = runStoreOps emptyTaskMap ops)
    ∧ ∀ (m : TaskMap) (t : Task),
        applyWalLine m (.upsertRec t) = applyWalLine m (.updateRec t.id t) := by
  constructor
  · intro ops n
    funext k
    show replayWal (runStoreOps emptyTaskMap (ops.take n)) (walOf ops) k
        = runStoreOps emptyTaskMap ops k
    rw [replayWal_walOf, runStoreOps_eq_lastWrite, runStoreOps_eq_lastWrite,
      runStoreOps_eq_lastWrite]
    cases hfull : lastWrite ops k with
    | some t => rfl
    | none =>
      have hsplit := lastWrite_append k (ops.take n) (ops.drop n)
      rw [List.take_append_drop] at hsplit
      rw [hfull] at hsplit
      cases hdrop : lastWrite (ops.drop n) k with
      | some t => rw [hdrop] at hsplit; simp at hsplit
      | none =>
        rw [hdrop] at hsplit
        simp only [Option.elim] at hsplit
        simp [← hsplit]
  · intro m t
    rfl

/-- C9: a snapshot file that does not parse yields the empty initial state
(replay then starts from the empty map); and the replay loop applies exactly
the well-formed records before the first undecodable line — an unparseable or
truncated record terminates replay at that point (the loop `break`s, and
`loadSnapshotAndWal` signals no error: store.go line 119 returns nil
unconditionally), with every valid record decoded before it applied. -/
theorem c9_snapshot_and_wal_error_handling :
    (∀ wal : List WalLine,
      loadSnapshotAndWal .parseError wal = replayWal emptyTaskMap wal)
    ∧ ∀ (wal : List WalLine) (m : TaskMap),
        replayWal m wal = (wal.takeWhile WalLine.wellFormed).foldl applyWalLine m := by
  constructor
  · intro wal
    rfl
  · intro wal
    induction wal with
    | nil => intro m; rfl
    | cons line rest ih =>
      intro m
      cases hwf : line.wellFormed with
      | true =>
        simp only [replayWal, hwf, if_true, List.takeWhile_cons, List.foldl_cons]
        exact ih _
      | false =>
        simp [replayWal, hwf, List.takeWhile_cons]

/- ----------------------------------------------------------------
Crash-recovery requeue: Manager.Start (manager part_000 lines 67-93)
---------------------------------------------------------------- -/

/-- The reset Start() applies to an item whose status is not `done`
(part_000 lines 74-77): status `queued`, clear `error_message`,
`started_at`, `completed_at`; the attempts counter is untouched. -/
def requeueReset (it : Item) : Item :=
  { it with status := .queued, errorMessage := "", startedAt := none,
            completedAt := none }

/-- The inner loop `for idx := range t.Items` of Start (part_000 lines 71-81),
processing the items from position `i` on.  Returns the items after the loop,
the list of enqueued tickets (item indices, in enqueue order; each reset is
followed by `m.queue <- queueItem{taskID: t.ID, itemIdx: idx}`, line 79) and
the number of `m.store.UpdateTask(t)` calls it made (line 78). -/
def startItems (i : Nat) : List Item → List Item × List Nat × Nat
  | [] => ([], [], 0)
  | it :: rest =>
    let r := startItems (i + 1) rest
    if it.status = .done then (it :: r.1, r.2.1, r.2.2)
    else (requeueReset it :: r.1, i :: r.2.1, r.2.2 + 1)

/-- Start()'s requeue for one persisted task (part_000 lines 70-86): run the
item loop, then — because the item loop never touches `t.Status` — if the
task's status is not `completed`, set it to `pending` and persist once more
(lines 82-85).  Returns the final value of the shared `*model.Task` (which is
also the value the last `Store.UpdateTask` call left in the store map, since
every update stores the same pointer), the tickets and the update count. -/
def startTask (t : Task) : Task × List Nat × Nat :=
  let r := startItems 0 t.items
  let t1 : Task := { t with items := r.1 }
  if t1.status = .completed then (t1, r.2.1, r.2.2)
  else ({ t1 with status := .pending }, r.2.1, r.2.2 + 1)

theorem startItems_items (i : Nat) (items : List Item) :
    (startItems i items).1
      = items.map fun it => if it.status = .done then it else requeueReset it := by
  induction items generalizing i with
  | nil => rfl
  | cons it rest ih =>
    by_cases h : it.status = .done <;> simp [startItems, h, ih]

theorem startItems_ticket_ge (items : List Item) :
    ∀ (i k : Nat), k ∈ (startItems i items).2.1 → i ≤ k := by
  induction items with
  | nil =>
    intro i k hk
    simp [startItems] at hk
  | cons it rest ih =>
    intro i k hk
    by_cases h : it.status = .done
    · simp only [startItems, h, if_true] at hk
      exact Nat.le_of_succ_le (ih (i + 1) k hk)
    · simp only [startItems, h, if_false, List.mem_cons] at hk
      rcases hk with rfl | hk
      · exact Nat.le_refl k
      · exact Nat.le_of_succ_le (ih (i + 1) k hk)

theorem startItems_ticket_count (items : List Item) :
    ∀ (i j : Nat) (it : Item), items.get? j = some it →
      (startItems i items).2.1.count (i + j)
        = if it.status = .done then 0 else 1 := by
  induction items with
  | nil =>
    intro i j it h
    simp at h
  | cons hd rest ih =>
    intro i j it h
    cases j with
    | zero =>
      simp only [List.get?_cons_zero, Option.some_inj] at h
      subst h
      by_cases hdone : hd.status = .done
      · simp only [startItems, hdone, if_true, Nat.add_zero]
        rw [List.count_eq_zero]
        intro hmem
        have := startItems_ticket_ge rest (i + 1) i hmem
        omega
      · simp only [startItems, hdone, if_false, Nat.add_zero, List.count_cons_self]
        rw [List.count_eq_zero.mpr, Nat.zero_add]
        intro hmem
        have := startItems_ticket_ge rest (i + 1) i hmem
        omega
    | succ j =>
      simp only [List.get?_cons_succ] at h
      have hrec := ih (i + 1) j it h
      by_cases hdone : hd.status = .done
      · simpa [startItems, hdone, Nat.add_assoc, Nat.add_comm 1 j] using hrec
      · simp only [startItems, hdone, if_false, List.count_cons]
        have hne : ¬ (i + (j + 1) = i) := by omega
        simpa [hne, Nat.add_assoc, Nat.add_comm 1 j] using hrec

theorem startItems_updates (i : Nat) (items : List Item) :
    (startItems i items).2.2
      = (items.filter fun it => it.status ≠ ItemStatus.done).length := by
  induction items generalizing i with
  | nil => rfl
  | cons it rest ih =>
    by_cases h : it.status = .done <;>
      simp [startItems, List.filter_cons, h, ih]

/-- C3: when Start() runs the crash-recovery requeue on a persisted task,
then for the item at any position `j`: if its status is not `done` it ends
with status `queued`, empty error message, cleared started_at/completed_at
and its attempts value unchanged, and exactly one ticket for position `j` is
enqueued; if it is `done` it is left untouched and no ticket for it is
enqueued; a task whose status is not `completed` ends with status `pending`;
and the number of `Store.Update` calls is one per non-done item plus one for
the task-status change — so every reset item and every non-completed task is
persisted (every update persists the same shared task record, whose final
value is the returned task). -/
theorem c3_start_requeue (t : Task) (j : Nat) (it : Item)
    (hj : t.items.get? j = some it) :
    (it.status ≠ .done →
      (startTask t).1.items.get? j
          = some { it with status := .queued, errorMessage := "",
                           startedAt := none, completedAt := none }
        ∧ (startTask t).2.1.count j = 1)
    ∧ (it.status = .done →
        (startTask t).1.items.get? j = some it ∧ (startTask t).2.1.count j = 0)
    ∧ (∀ it2, (startTask t).1.items.get? j = some it2 → it2.attempts = it.attempts)
    ∧ (t.status ≠ .completed → (startTask t).1.status = .pending)
    ∧ (t.status = .completed → (startTask t).1.status = .completed)
    ∧ (startTask t).2.2
        = (t.items.filter fun x => x.status ≠ ItemStatus.done).length
          + (if t.status = .completed then 0 else 1) := by
  have hitems : (startTask t).1.items
      = t.items.map fun x => if x.status = .done then x else requeueReset x := by
    by_cases hc : t.status = .completed <;>
      simp [startTask, hc, startItems_items]
  have hticks : (startTask t).2.1 = (startItems 0 t.items).2.1 := by
    by_cases hc : t.status = .completed <;> simp [startTask, hc]
  have hcount := startItems_ticket_count t.items 0 j it hj
  rw [Nat.zero_add] at hcount
  have hget : (startTask t).1.items.get? j
      = some (if it.status = .done then it else requeueReset it) := by
    rw [hitems, List.get?_map, hj]
    rfl
  refine ⟨?_, ?_, ?_, ?_, ?_, ?_⟩
  · intro hnd
    refine ⟨?_, ?_⟩
    · rw [hget, if_neg hnd]
      rfl
    · rw [hticks, hcount, if_neg hnd]
  · intro hd
    refine ⟨?_, ?_⟩
    · rw [hget, if_pos hd]
    · rw [hticks, hcount, if_pos hd]
  · intro it2 h2
    rw [hget] at h2
    have h3 := Option.some_inj.mp h2
    subst h3
    by_cases hd : it.status = .done
    · rw [if_pos hd]
    · rw [if_neg hd]
      rfl
  · intro hnc
    simp [startTask, hnc]
  · intro hc
    simp [startTask, hc]
  · by_cases hc : t.status = .completed <;>
      simp [startTask, hc, startItems_updates]

/-- Witness for C3 at a concrete one-item task whose item failed before the
restart: the item is requeued with attempts preserved and one ticket. -/
theorem c3_start_requeue_witness :
    ItemStatus.error ≠ ItemStatus.done
    ∧ ((startTask
          { id := "t1", createdAt := 0, status := .failed,
            items := [{ url := "http://h/a", fileName := "f", status := .error,
                        attempts := 2, errorMessage := "boom", sizeExpected := 0,
                        sizeDownloaded := 0, startedAt := some 1,
                        completedAt := none }] }).1.items.get? 0
          = some
              { url := "http://h/a", fileName := "f", status := .queued,
                attempts := 2, errorMessage := "", sizeExpected := 0,
                sizeDownloaded := 0, startedAt := none, completedAt := none }
        ∧ (startTask
            { id := "t1", createdAt := 0, status := .failed,
              items := [{ url := "http://h/a", fileName := "f",
                          status := .error, attempts := 2,
                          errorMessage := "boom", sizeExpected := 0,
                          sizeDownloaded := 0, startedAt := some 1,
                          completedAt := none }] }).2.1.count 0 = 1) :=
  ⟨by decide,
    (c3_start_requeue
      { id := "t1", createdAt := 0, status := .failed,
        items := [{ url := "http://h/a", fileName := "f", status := .error,
                    attempts := 2, errorMessage := "boom", sizeExpected := 0,
                    sizeDownloaded := 0, startedAt := some 1,
                    completedAt := none }] }
      0
      { url := "http://h/a", fileName := "f", status := .error, attempts := 2,
        errorMessage := "boom", sizeExpected := 0, sizeDownloaded := 0,
        startedAt := some 1, completedAt := none }
      rfl).1 (by decide)⟩

/- ----------------------------------------------------------------
Store.Close (store.go lines 57-67)
---------------------------------------------------------------- -/

/-- The WAL file handle `Store.walFile : *os.File`: its written contents and
whether the OS handle is still open.  `os.File.Close` on an already-closed
file returns a non-nil `ErrClosed` error. -/
structure WalFile where
  contents : List String
  isOpen : Bool
deriving DecidableEq, Repr

/-- The buffered writer `Store.walWriter : *bufio.Writer` wrapping the WAL
file: the not-yet-written buffer. -/
structure WalWriter where
  buf : List String
deriving DecidableEq, Repr

/-- The file-handle part of the store state (store.go lines 20-21).  After
`NewStore` both handles are non-nil, so they are modelled as always present. -/
structure StoreHandle where
  file : WalFile
  writer : WalWriter
deriving DecidableEq, Repr

/-- `bufio.Writer.Flush`: an empty buffer is a no-op returning nil; a
non-empty buffer is written through to the file when the handle is open,
and fails (leaving the buffer pending) when it is closed. -/
def walFlush (s : StoreHandle) : StoreHandle × Option String :=
  if s.writer.buf = [] then (s, none)
  else if s.file.isOpen then
    ({ file := { s.file with contents := s.file.contents ++ s.writer.buf },
       writer := { buf := [] } }, none)
  else (s, some "write on closed file")

/-- `os.File.Close`: closes an open handle and returns nil; returns the
`file already closed` error when the handle was closed before. -/
def walFileClose (f : WalFile) : WalFile × Option String :=
  if f.isOpen then ({ f with isOpen := false }, none)
  else (f, some "file already closed")

/-- Store.Close (store.go lines 57-67): flush the writer — the flush error is
discarded (line 61 ignores the return value) — then return the result of
closing the log file.  Neither handle is set to nil. -/
def storeClose (s : StoreHandle) : StoreHandle × Option String :=
  let s1 := (walFlush s).1
  let r := walFileClose s1.file
  ({ s1 with file := r.1 }, r.2)

/-- C8 counterexample: at the state `NewStore` leaves behind (open file,
empty buffer), the first Close succeeds but a second Close returns the
`file already closed` error rather than success — Close is not idempotent
as claimed. -/
theorem c8_close_not_idempotent_counterexample :
    (storeClose { file := { contents := [], isOpen := true },
                  writer := { buf := [] } }).2 = none
    ∧ (storeClose (storeClose { file := { contents := [], isOpen := true },
                                writer := { buf := [] } }).1).2 ≠ none := by
  decide

/-- C8 amended: Close flushes the WAL buffer and closes the log file; and
after a successful first Close, a second Close leaves the store's state
completely unchanged but returns the `file already closed` error instead of
success (the file handle is not cleared, so `os.File.Close` runs again). -/
theorem c8_close_second_call (s : StoreHandle) (h : (storeClose s).2 = none) :
    (storeClose s).1.writer.buf = []
    ∧ (storeClose s).1.file.isOpen = false
    ∧ (storeClose (storeClose s).1).1 = (storeClose s).1
    ∧ (storeClose (storeClose s).1).2 = some "file already closed" := by
  rcases s with ⟨⟨contents, isOpen⟩, ⟨buf⟩⟩
  cases isOpen with
  | false =>
    exfalso
    by_cases hb : (buf : List String) = [] <;>
      simp [storeClose, walFlush, walFileClose, hb] at h
  | true =>
    by_cases hb : (buf : List String) = [] <;>
      simp [storeClose, walFlush, walFileClose, hb]

/-- Witness for C8's amended theorem at the freshly-opened store state. -/
theorem c8_close_second_call_witness :
    (storeClose { file := { contents := ["r1"], isOpen := true },
                  writer := { buf := ["r2"] } }).2 = none
    ∧ (storeClose (storeClose { file := { contents := ["r1"], isOpen := true },
                                writer := { buf := ["r2"] } }).1).1
        = (storeClose { file := { contents := ["r1"], isOpen := true },
                        writer := { buf := ["r2"] } }).1
    ∧ (storeClose (storeClose { file := { contents := ["r1"], isOpen := true },
                                writer := { buf := ["r2"] } }).1).2
        = some "file already closed" :=
  ⟨by decide,
    (c8_close_second_call
      { file := { contents := ["r1"], isOpen := true },
        writer := { buf := ["r2"] } } (by decide)).2.2.1,
    (c8_close_second_call
      { file := { contents := ["r1"], isOpen := true },
        writer := { buf := ["r2"] } } (by decide)).2.2.2⟩

/- ----------------------------------------------------------------
SHA-256 (model of Go crypto/sha256, FIPS 180-4) over byte lists.
32-bit words are Nat values kept below 2^32 by explicit reduction.
---------------------------------------------------------------- -/

/-- 2^32, the 32-bit word modulus. -/
def M32 : Nat := 4294967296

/-- Reduce to a 32-bit word. -/
def w32 (x : Nat) : Nat := x % M32

/-- 32-bit rotate right. -/
def rotr32 (n x : Nat) : Nat := w32 ((x >>> n) ||| (x <<< (32 - n)))

/-- Bitwise complement on 32 bits. -/
def not32 (x : Nat) : Nat := x ^^^ (M32 - 1)

def ch32 (x y z : Nat) : Nat := (x &&& y) ^^^ (not32 x &&& z)

def maj32 (x y z : Nat) : Nat := (x &&& y) ^^^ (x &&& z) ^^^ (y &&& z)

def bigSigma0 (x : Nat) : Nat := rotr32 2 x ^^^ rotr32 13 x ^^^ rotr32 22 x

def bigSigma1 (x : Nat) : Nat := rotr32 6 x ^^^ rotr32 11 x ^^^ rotr32 25 x

def smallSigma0 (x : Nat) : Nat := rotr32 7 x ^^^ rotr32 18 x ^^^ (x >>> 3)

def smallSigma1 (x : Nat) : Nat := rotr32 17 x ^^^ rotr32 19 x ^^^ (x >>> 10)

/-- The SHA-256 round constants of FIPS 180-4 (decimal). -/
def sha256K : List Nat :=
  [1116352408, 1899447441, 3049323471, 3921009573,
   961987163, 1508970993, 2453635748, 2870763221,
   3624381080, 310598401, 607225278, 1426881987,
   1925078388, 2162078206, 2614888103, 3248222580,
   3835390401, 4022224774, 264347078, 604807628,
   770255983, 1249150122, 1555081692, 1996064986,
   2554220882, 2821834349, 2952996808, 3210313671,
   3336571891, 3584528711, 113926993, 338241895,
   666307205, 773529912, 1294757372, 1396182291,
   1695183700, 1986661051, 2177026350, 2456956037,
   2730485921, 2820302411, 3259730800, 3345764771,
   3516065817, 3600352804, 4094571909, 275423344,
   430227734, 506948616, 659060556, 883997877,
   958139571, 1322822218, 1537002063, 1747873779,
   1955562222, 2024104815, 2227730452, 2361852424,
   2428436474, 2756734187, 3204031479, 3329325298]

/-- The eight working variables of the compression function. -/
structure Hash8 where
  a : Nat
  b : Nat
  c : Nat
  d : Nat
  e : Nat
  f : Nat
  g : Nat
  h : Nat
deriving DecidableEq, Repr

/-- The SHA-256 initial hash value of FIPS 180-4 (decimal). -/
def sha256H0 : Hash8 :=
  { a := 1779033703, b := 3144134277, c := 1013904242, d := 2773480762,
    e := 1359893119, f := 2600822924, g := 528734635, h := 1541459225 }

/-- One round of the compression function. -/
def sha256Round (w k : Nat) (s : Hash8) : Hash8 :=
  let t1 := w32 (s.h + bigSigma1 s.e + ch32 s.e s.f s.g + k + w)
  let t2 := w32 (bigSigma0 s.a + maj32 s.a s.b s.c)
  { a := w32 (t1 + t2), b := s.a, c := s.b, d := s.c,
    e := w32 (s.d + t1), f := s.e, g := s.f, h := s.g }

/-- Extend the 16 block words to the 64-entry message schedule. -/
def sha256Schedule (block : List Nat) : List Nat :=
  (List.range 48).foldl
    (fun ws _ =>
      let n := ws.length
      ws ++ [w32 (smallSigma1 (ws.getD (n - 2) 0) + ws.getD (n - 7) 0
        + smallSigma0 (ws.getD (n - 15) 0) + ws.getD (n - 16) 0)])
    block

/-- Compress one 512-bit block (given as 16 words) into the chaining state. -/
def sha256Compress (s0 : Hash8) (block : List Nat) : Hash8 :=
  let ws := sha256Schedule block
  let s := (List.range 64).foldl
    (fun s i => sha256Round (ws.getD i 0) (sha256K.getD i 0) s) s0
  { a := w32 (s0.a + s.a), b := w32 (s0.b + s.b), c := w32 (s0.c + s.c),
    d := w32 (s0.d + s.d), e := w32 (s0.e + s.e), f := w32 (s0.f + s.f),
    g := w32 (s0.g + s.g), h := w32 (s0.h + s.h) }

/-- Group bytes into big-endian 32-bit words (four bytes per word). -/
def bytesToWords : List Nat → List Nat
  | b0 :: b1 :: b2 :: b3 :: rest =>
    (b0 * 16777216 + b1 * 65536 + b2 * 256 + b3) :: bytesToWords rest
  | _ => []

/-- The 8-byte big-endian encoding of a 64-bit value. -/
def be64 (n : Nat) : List Nat :=
  [(n >>> 56) &&& 255, (n >>> 48) &&& 255, (n >>> 40) &&& 255,
   (n >>> 32) &&& 255, (n >>> 24) &&& 255, (n >>> 16) &&& 255,
   (n >>> 8) &&& 255, n &&& 255]

/-- SHA-256 padding: append 0x80, zero-fill to 56 mod 64, append the 64-bit
big-endian bit length. -/
def sha256Pad (msg : List Nat) : List Nat :=
  msg ++ [0x80] ++ List.replicate ((119 - msg.length % 64) % 64) 0
    ++ be64 (8 * msg.length)

/-- The four big-endian bytes of a 32-bit word. -/
def wordBytes (w : Nat) : List Nat :=
  [(w >>> 24) &&& 255, (w >>> 16) &&& 255, (w >>> 8) &&& 255, w &&& 255]

/-- SHA-256 digest (32 bytes) of a byte string. -/
def sha256Bytes (msg : List Nat) : List Nat :=
  let padded := sha256Pad msg
  let final := (List.range (padded.length / 64)).foldl
    (fun s i => sha256Compress s (bytesToWords ((padded.drop (64 * i)).take 64)))
    sha256H0
  wordBytes final.a ++ wordBytes final.b ++ wordBytes final.c
    ++ wordBytes final.d ++ wordBytes final.e ++ wordBytes final.f
    ++ wordBytes final.g ++ wordBytes final.h

/-- UTF-8 encoding of one character (Go strings are UTF-8 byte sequences). -/
def utf8Bytes (c : Char) : List Nat :=
  let n := c.toNat
  if n < 128 then [n]
  else if n < 2048 then [192 ||| (n >>> 6), 128 ||| (n &&& 63)]
  else if n < 65536 then
    [224 ||| (n >>> 12), 128 ||| ((n >>> 6) &&& 63), 128 ||| (n &&& 63)]
  else
    [240 ||| (n >>> 18), 128 ||| ((n >>> 12) &&& 63),
     128 ||| ((n >>> 6) &&& 63), 128 ||| (n &&& 63)]

/-- The bytes of a Go string (`[]byte(rawURL)`). -/
def strBytes (s : String) : List Nat := s.data.flatMap utf8Bytes

/-- Go `encoding/hex` digit table (lowercase). -/
def hexDigitChar (n : Nat) : Char := "0123456789abcdef".data.getD n 'x'

/-- Go `hex.EncodeToString`: two lowercase hex digits per byte. -/
def hexEncode (bs : List Nat) : List Char :=
  bs.flatMap fun b => [hexDigitChar (b / 16), hexDigitChar (b % 16)]

/-- Go `hex.EncodeToString` as a String. -/
def hexEncodeStr (bs : List Nat) : String := ⟨hexEncode bs⟩

/- ----------------------------------------------------------------
Deterministic filename (internal/model/types.go lines 63-78), with models
of the Go standard-library helpers it calls.
---------------------------------------------------------------- -/

/-- Model of Go `path.Base`: the last element of the path after trailing
slashes are removed; "." for the empty path; "/" for an all-slash path. -/
def goPathBase (p : String) : String :=
  if p = "" then "."
  else
    let cs := (p.data.reverse.dropWhile fun c => c = '/').reverse
    let base := (cs.reverse.takeWhile fun c => c ≠ '/').reverse
    if base = [] then "/" else ⟨base⟩

/-- Model of Go `path.Ext`: the suffix beginning at the final dot in the
final slash-separated element; empty when there is no dot. -/
def goPathExt (p : String) : String :=
  let region := p.data.reverse.takeWhile fun c => c ≠ '/'
  let beforeDot := region.takeWhile fun c => c ≠ '.'
  if beforeDot.length < region.length then ⟨(beforeDot ++ ['.']).reverse⟩
  else ""

/-- Model of the Go standard-library `url.Parse` restricted to what
`DeriveDeterministicFileName` consumes: whether parsing succeeds and the
`Path` component.  Parsing fails on ASCII control characters; otherwise the
path is the URL with any fragment (from `#`) and query (from `?`) removed
and, when a `scheme://authority` prefix is present, everything up to the
first slash after `://` removed.  (Percent-decoding of the path is not
modelled; no claim depends on it.) -/
def goUrlPathAux : List Char → List Char
  | ':' :: '/' :: '/' :: rest => rest.dropWhile fun c => c ≠ '/'
  | _ :: rest => goUrlPathAux rest
  | [] => []

/-- Whether the character list contains the `://` scheme separator. -/
def hasSchemeMark : List Char → Bool
  | ':' :: '/' :: '/' :: _ => true
  | _ :: rest => hasSchemeMark rest
  | [] => false

def goUrlPath (raw : String) : Option String :=
  if raw.data.any (fun c => c.toNat < 32 ∨ c.toNat = 127) then none
  else
    let cs := (raw.data.takeWhile fun c => c ≠ '#').takeWhile fun c => c ≠ '?'
    if hasSchemeMark cs then some ⟨goUrlPathAux cs⟩ else some ⟨cs⟩

/-- model.DeriveDeterministicFileName (types.go lines 63-78): hex of the
first 16 bytes of SHA-256 of the full URL string; when the URL parses, its
path's basename is none of "/", ".", "", contains no '?', and carries an
extension of length 1..10 (dot included), that extension is appended. -/
def DeriveDeterministicFileName (rawURL : String) : String :=
  let hexName := hexEncodeStr ((sha256Bytes (strBytes rawURL)).take 16)
  match goUrlPath rawURL with
  | some path =>
    let base := goPathBase path
    if base ≠ "/" ∧ base ≠ "." ∧ base ≠ "" ∧ base.data.contains '?' = false then
      let ext := goPathExt base
      if 0 < ext.length ∧ ext.length ≤ 10 then hexName ++ ext else hexName
    else hexName
  | none => hexName

/-- The extension `DeriveDeterministicFileName` appends ("" when the
qualifying condition of types.go lines 67-70 fails). -/
def ddfnExtSuffix (rawURL : String) : String :=
  match goUrlPath rawURL with
  | some path =>
    let base := goPathBase path
    if base ≠ "/" ∧ base ≠ "." ∧ base ≠ "" ∧ base.data.contains '?' = false then
      let ext := goPathExt base
      if 0 < ext.length ∧ ext.length ≤ 10 then ext else ""
    else ""
  | none => ""

theorem hexEncode_length (bs : List Nat) : (hexEncode bs).length = 2 * bs.length := by
  induction bs with
  | nil => rfl
  | cons b bs ih =>
    simp only [hexEncode, List.flatMap_cons] at *
    simp [ih]
    omega

theorem hexDigitChar_mem (n : Nat) (hn : n < 16) :
    "0123456789abcdef".data.contains (hexDigitChar n) = true := by
  interval_cases n <;> decide

theorem hexEncode_hex (bs : List Nat) (hb : ∀ b ∈ bs, b ≤ 255) :
    (hexEncode bs).all (fun c => "0123456789abcdef".data.contains c) = true := by
  induction bs with
  | nil => rfl
  | cons b bs ih =>
    have hb0 : b ≤ 255 := hb b (List.mem_cons_self b bs)
    simp only [hexEncode, List.flatMap_cons, List.all_append, List.all_cons,
      List.all_nil, Bool.and_true, Bool.and_eq_true] at *
    refine ⟨⟨hexDigitChar_mem _ ?_, hexDigitChar_mem _ ?_⟩,
      ih fun x hx => hb x (List.mem_cons_of_mem b hx)⟩
    · omega
    · exact Nat.mod_lt _ (by omega)

theorem wordBytes_le (w : Nat) : ∀ b ∈ wordBytes w, b ≤ 255 := by
  intro b hb
  simp only [wordBytes, List.mem_cons, List.not_mem_nil, or_false] at hb
  rcases hb with rfl | rfl | rfl | rfl <;> exact Nat.and_le_right

theorem sha256Bytes_le (msg : List Nat) : ∀ b ∈ sha256Bytes msg, b ≤ 255 := by
  intro b hb
  simp only [sha256Bytes, List.mem_append] at hb
  rcases hb with ((((((h | h) | h) | h) | h) | h) | h) | h <;>
    exact wordBytes_le _ _ h

theorem sha256Bytes_length (msg : List Nat) : (sha256Bytes msg).length = 32 := by
  simp [sha256Bytes, wordBytes]

/-- C5: for every URL string `u`, `DeriveDeterministicFileName u` — a pure
function of `u` in this embedding, hence deterministic across processes — is
the hex encoding of the first 16 bytes of SHA-256 of `u` (exactly 32
characters, all lowercase hex digits) followed by `ddfnExtSuffix u`, which is
the parsed URL path's basename's extension exactly when that basename is a
real name (not "/", "." or ""), contains no '?', and the extension's length
(dot included) is between 1 and 10 — and the empty string otherwise; in
particular the total length is 32 plus the suffix length, so a URL whose path
carries no qualifying extension yields exactly 32 hex characters. -/
theorem c5_deterministic_filename (u : String) :
    DeriveDeterministicFileName u
        = hexEncodeStr ((sha256Bytes (strBytes u)).take 16) ++ ddfnExtSuffix u
    ∧ (hexEncodeStr ((sha256Bytes (strBytes u)).take 16)).length = 32
    ∧ ((hexEncodeStr ((sha256Bytes (strBytes u)).take 16)).data.all
        fun c => "0123456789abcdef".data.contains c) = true
    ∧ (DeriveDeterministicFileName u).length = 32 + (ddfnExtSuffix u).length := by
  have hlen : (hexEncodeStr ((sha256Bytes (strBytes u)).take 16)).length = 32 := by
    show (hexEncode ((sha256Bytes (strBytes u)).take 16)).length = 32
    rw [hexEncode_length, List.length_take, sha256Bytes_length]
    rfl
  have hhex : ((hexEncodeStr ((sha256Bytes (strBytes u)).take 16)).data.all
      fun c => "0123456789abcdef".data.contains c) = true := by
    exact hexEncode_hex _ fun b hb =>
      sha256Bytes_le (strBytes u) b (List.mem_of_mem_take hb)
  have heq : DeriveDeterministicFileName u
      = hexEncodeStr ((sha256Bytes (strBytes u)).take 16) ++ ddfnExtSuffix u := by
    unfold DeriveDeterministicFileName ddfnExtSuffix
    cases hp : goUrlPath u with
    | none => simp
    | some path =>
      simp only
      split_ifs with h1 h2
      · rfl
      · simp
      · simp
  refine ⟨heq, hlen, hhex, ?_⟩
  rw [heq, String.length_append, hlen]

/- ----------------------------------------------------------------
util.NewID (internal/util/id.go lines 9-15) and Manager.CreateTask
(manager part_000 lines 116-137)
---------------------------------------------------------------- -/

/-- util.NewID: hex-encode 16 random bytes (the random source is passed in
explicitly; `crypto/rand.Read` fills all 16 bytes). -/
def NewID (randBytes : List Nat) : String := hexEncodeStr randBytes

/-- The item CreateTask builds for one URL (part_000 lines 124-128); the
remaining fields take Go's zero values. -/
def newItem (u : String) : Item :=
  { url := u, fileName := DeriveDeterministicFileName u, status := .queued,
    attempts := 0, errorMessage := "", sizeExpected := 0, sizeDownloaded := 0,
    startedAt := none, completedAt := none }

/-- Result of Manager.CreateTask: the returned id or an error, the task that
was built, and the tickets placed on the queue (item indices, in order). -/
structure CreateOut where
  result : Except Unit TaskID
  task : Task
  enqueued : List Nat
deriving Repr

/-- Manager.CreateTask (part_000 lines 116-137): build a Task with a fresh
id, `pending` status and one queued item per URL; persist it via
`Store.UpsertTask`; if the upsert fails return the error having enqueued
nothing (lines 130-132); otherwise enqueue one ticket per item (lines
133-135) and return the id. -/
def CreateTask (randBytes : List Nat) (now : Nat) (urls : List String)
    (upsertOk : Bool) : CreateOut :=
  let t : Task :=
    { id := NewID randBytes, createdAt := now, status := .pending,
      items := urls.map newItem }
  if upsertOk then
    { result := .ok t.id, task := t, enqueued := List.range t.items.length }
  else
    { result := .error (), task := t, enqueued := [] }

/-- C7: CreateTask for a non-empty URL list builds a task whose id is the
32-character lowercase-hex encoding of the 16 fresh random bytes, whose
status is `pending`, with exactly one item per URL in input order — each
queued, with zero attempts and file name `DeriveDeterministicFileName url` —
persists it via Store.Upsert and, when the upsert succeeds, enqueues exactly
one ticket per item (indices 0..n-1 in order) and returns the new id; when
the upsert fails it returns an error and enqueues nothing. -/
theorem c7_create_task (randBytes : List Nat) (now : Nat) (urls : List String)
    (upsertOk : Bool) (hurls : urls ≠ []) (hrand : randBytes.length = 16)
    (hbytes : ∀ b ∈ randBytes, b ≤ 255) :
    (CreateTask randBytes now urls upsertOk).task.status = .pending
    ∧ (CreateTask randBytes now urls upsertOk).task.id = NewID randBytes
    ∧ (NewID randBytes).length = 32
    ∧ ((NewID randBytes).data.all
        fun c => "0123456789abcdef".data.contains c) = true
    ∧ (CreateTask randBytes now urls upsertOk).task.items.length = urls.length
    ∧ (CreateTask randBytes now urls upsertOk).task.items.length ≠ 0
    ∧ (∀ (j : Nat) (u : String), urls.get? j = some u →
        (CreateTask randBytes now urls upsertOk).task.items.get? j
          = some { url := u, fileName := DeriveDeterministicFileName u,
                   status := .queued, attempts := 0, errorMessage := "",
                   sizeExpected := 0, sizeDownloaded := 0, startedAt := none,
                   completedAt := none })
    ∧ (upsertOk = true →
        (CreateTask randBytes now urls upsertOk).result
            = .ok (CreateTask randBytes now urls upsertOk).task.id
          ∧ (CreateTask randBytes now urls upsertOk).enqueued
              = List.range urls.length)
    ∧ (upsertOk = false →
        (CreateTask randBytes now urls upsertOk).result = .error ()
          ∧ (CreateTask randBytes now urls upsertOk).enqueued = []) := by
  refine ⟨?_, ?_, ?_, ?_, ?_, ?_, ?_, ?_, ?_⟩
  · cases upsertOk <;> rfl
  · cases upsertOk <;> rfl
  · show (hexEncode randBytes).length = 32
    rw [hexEncode_length, hrand]
  · exact hexEncode_hex randBytes hbytes
  · cases upsertOk <;> simp [CreateTask]
  · cases upsertOk <;> simp [CreateTask, hurls]
  · intro j u hj
    cases upsertOk <;>
      exact (by
        show (List.map newItem urls).get? j = _
        rw [List.get?_map, hj]
        rfl)
  · intro hok
    subst hok
    exact ⟨rfl, by simp [CreateTask]⟩
  · intro hko
    subst hko
    exact ⟨rfl, rfl⟩

/-- Witness for C7 at a concrete call: one URL, 16 zero random bytes, a
successful upsert. -/
theorem c7_create_task_witness :
    (CreateTask (List.replicate 16 0) 0 ["http://h/a.zip"] true).task.status
        = .pending
    ∧ (NewID (List.replicate 16 0)).length = 32
    ∧ (CreateTask (List.replicate 16 0) 0 ["http://h/a.zip"] true).enqueued
        = List.range 1 :=
  ⟨(c7_create_task (List.replicate 16 0) 0 ["http://h/a.zip"] true
      (by decide) (by decide) (by decide)).1,
   (c7_create_task (List.replicate 16 0) 0 ["http://h/a.zip"] true
      (by decide) (by decide) (by decide)).2.2.1,
   ((c7_create_task (List.replicate 16 0) 0 ["http://h/a.zip"] true
      (by decide) (by decide) (by decide)).2.2.2.2.2.2.2.1 rfl).2⟩

/- ----------------------------------------------------------------
Reachable persisted states of one task.

Every store mutation in the manager touches a single task (the per-task
mutex serializes them), so the persisted store state is modelled one task
at a time.  A state is the persisted task record together with the
outstanding work for this task: the queued `queueItem` tickets plus the
retry timers that will re-enqueue one (part_000 lines 42-46, 287-291).
Each transition below is exactly one `Store.UpdateTask` persist point of
the manager, so "every reachable state" includes the states persisted
between the individual updates of one worker call.
---------------------------------------------------------------- -/

/-- The manager configuration fields the claims depend on (part_000
lines 20-27).  `MaxRetryPerItem` is non-negative in every deployment
(config default 3), modelled as `Nat`. -/
structure MConfig where
  maxRetryPerItem : Nat
deriving DecidableEq, Repr

/-- Persisted task record plus outstanding tickets for this task. -/
structure MState where
  task : Task
  tickets : List Nat
deriving DecidableEq, Repr

/-- Replace item `i` of a task (`t.Items[i] = it` through the shared
pointer). -/
def setTaskItem (t : Task) (i : Nat) (it : Item) : Task :=
  { t with items := t.items.set i it }

/-- The state CreateTask leaves behind (part_000 lines 116-137): the
persisted new task and one ticket per item. -/
def createState (randBytes : List Nat) (now : Nat) (urls : List String) :
    MState :=
  { task := (CreateTask randBytes now urls true).task,
    tickets := (CreateTask randBytes now urls true).enqueued }

/-- Worker transitions: each constructor is one persisted store update made
while processing this task during a single process run.

* `pickup` — processQueueItem lines 186-191: a ticket for item `i` is
  dequeued; the task is marked `running`, the item `downloading` with
  `started_at` set, and the task is persisted.
* `fail` — retryOrFail lines 281-284 and failItem lines 311-314: the item
  being processed (hence currently `downloading`) fails; attempts is
  incremented, the error message set, the status becomes `error`, and the
  task is persisted.  `size_expected`/`size_downloaded` may have been
  updated earlier in the same call (lines 227-228, 247), so they are
  persisted here with arbitrary new values.
* `requeue` — the retry timer of retryOrFail lines 285-292: an errored item
  whose attempts have not exceeded `MaxRetryPerItem` is set back to
  `queued`, persisted, and its ticket is re-enqueued.
* `markFailed` — retryOrFail lines 294-306: an errored item has exhausted
  its retries and no item is queued or downloading; the task is marked
  `failed` and persisted.
* `finish` — processQueueItem lines 259-263: the item being processed
  (currently `downloading`) completes; `completed_at` is set, the error
  message cleared, the status becomes `done`, and the task is persisted
  (together with the size fields updated earlier in the call).
* `completeTask` — processQueueItem lines 266-276: when every item is
  `done`, the task is marked `completed` and persisted. -/
inductive WStep (cfg : MConfig) : MState → MState → Prop
  | pickup (s : MState) (i : Nat) (it : Item) (t0 : Nat)
      (hticket : i ∈ s.tickets)
      (hit : s.task.items.get? i = some it) :
      WStep cfg s
        { task := setTaskItem { s.task with status := .running } i
            { it with status := .downloading, startedAt := some t0 },
          tickets := s.tickets.erase i }
  | fail (s : MState) (i : Nat) (it : Item) (msg : String) (se sd : Int)
      (hit : s.task.items.get? i = some it)
      (hdl : it.status = .downloading) :
      WStep cfg s
        { task := setTaskItem s.task i
            { it with status := .error, attempts := it.attempts + 1,
                      errorMessage := msg, sizeExpected := se,
                      sizeDownloaded := sd },
          tickets := s.tickets }
  | requeue (s : MState) (i : Nat) (it : Item)
      (hit : s.task.items.get? i = some it)
      (herr : it.status = .error)
      (hretry : it.attempts ≤ cfg.maxRetryPerItem) :
      WStep cfg s
        { task := setTaskItem s.task i { it with status := .queued },
          tickets := s.tickets ++ [i] }
  | markFailed (s : MState) (i : Nat) (it : Item)
      (hit : s.task.items.get? i = some it)
      (herr : it.status = .error)
      (hexh : cfg.maxRetryPerItem < it.attempts)
      (hnp : ∀ j ∈ s.task.items, j.status ≠ .queued ∧ j.status ≠ .downloading) :
      WStep cfg s
        { task := { s.task with status := .failed }, tickets := s.tickets }
  | finish (s : MState) (i : Nat) (it : Item) (tEnd : Nat) (se sd : Int)
      (hit : s.task.items.get? i = some it)
      (hdl : it.status = .downloading) :
      WStep cfg s
        { task := setTaskItem s.task i
            { it with status := .done, completedAt := some tEnd,
                      errorMessage := "", sizeExpected := se,
                      sizeDownloaded := sd },
          tickets := s.tickets }
  | completeTask (s : MState)
      (hall : ∀ it ∈ s.task.items, it.status = .done) :
      WStep cfg s
        { task := { s.task with status := .completed }, tickets := s.tickets }

/-- Restart transitions: a process crash (the in-memory queue and timers
vanish; the persisted task is untouched) followed by the persist points of
Start()'s crash-recovery requeue (part_000 lines 67-86):

* `restartItem` — lines 73-79: a non-`done` item is reset to `queued` (error
  message and timestamps cleared, attempts preserved), persisted, and a
  ticket for it is enqueued.
* `restartTask` — lines 82-85: a task whose status is not `completed` is set
  back to `pending` and persisted. -/
inductive RStep : MState → MState → Prop
  | crash (s : MState) : RStep s { task := s.task, tickets := [] }
  | restartItem (s : MState) (i : Nat) (it : Item)
      (hit : s.task.items.get? i = some it)
      (hnd : it.status ≠ .done) :
      RStep s
        { task := setTaskItem s.task i (requeueReset it),
          tickets := s.tickets ++ [i] }
  | restartTask (s : MState)
      (hnc : s.task.status ≠ .completed) :
      RStep s
        { task := { s.task with status := .pending }, tickets := s.tickets }

/-- A transition of the full system: a worker step or a restart step. -/
def Step (cfg : MConfig) (s s' : MState) : Prop :=
  WStep cfg s s' ∨ RStep s s'

/-- States reachable from task creation, restarts included. -/
def Reach (cfg : MConfig) (s0 s : MState) : Prop :=
  Relation.ReflTransGen (Step cfg) s0 s

/-- States reachable from task creation within a single process run
(worker steps only, no crash/restart). -/
def ReachRun (cfg : MConfig) (s0 s : MState) : Prop :=
  Relation.ReflTransGen (WStep cfg) s0 s

/- ----------------------------------------------------------------
List helper lemmas used by the invariant proofs
---------------------------------------------------------------- -/

theorem get?_lt_length {α} {l : List α} {i : Nat} {a : α}
    (h : l.get? i = some a) : i < l.length := by
  by_contra hlt
  rw [List.get?_eq_none.mpr (by omega)] at h
  cases h

theorem get?_set_self {α} (l : List α) (i : Nat) (a : α) (h : i < l.length) :
    (l.set i a).get? i = some a := by
  induction l generalizing i with
  | nil => simp at h
  | cons x xs ih =>
    cases i with
    | zero => rfl
    | succ i =>
      show (xs.set i a).get? i = some a
      exact ih i (by simpa using h)

theorem get?_set_other {α} (l : List α) (i j : Nat) (a : α) (h : i ≠ j) :
    (l.set i a).get? j = l.get? j := by
  induction l generalizing i j with
  | nil => rfl
  | cons x xs ih =>
    cases i with
    | zero =>
      cases j with
      | zero => exact absurd rfl h
      | succ j => rfl
    | succ i =>
      cases j with
      | zero => rfl
      | succ j => exact ih i j fun hh => h (by rw [hh])

theorem mem_of_mem_set {α} {l : List α} {i : Nat} {a x : α}
    (h : x ∈ l.set i a) : x = a ∨ x ∈ l := by
  induction l generalizing i with
  | nil => simp [List.set] at h
  | cons y ys ih =>
    cases i with
    | zero =>
      rcases List.mem_cons.mp h with rfl | hm
      · exact Or.inl rfl
      · exact Or.inr (List.mem_cons_of_mem _ hm)
    | succ i =>
      rcases List.mem_cons.mp h with rfl | hm
      · exact Or.inr (List.mem_cons_self _ _)
      · rcases ih hm with rfl | hm2
        · exact Or.inl rfl
        · exact Or.inr (List.mem_cons_of_mem _ hm2)

/- ----------------------------------------------------------------
C1: completed ⇒ all items done, at every reachable persisted state
---------------------------------------------------------------- -/

/-- The one-directional completion invariant. -/
def CompletedAllDone (s : MState) : Prop :=
  s.task.status = .completed → ∀ it ∈ s.task.items, it.status = .done

theorem completedAllDone_init (rb : List Nat) (now : Nat) (urls : List String) :
    CompletedAllDone (createState rb now urls) := by
  intro hc
  exact absurd hc (by simp [createState, CreateTask])

theorem completedAllDone_wstep {cfg : MConfig} {s s' : MState}
    (h : WStep cfg s s') (ih : CompletedAllDone s) : CompletedAllDone s' := by
  cases h with
  | pickup i it t0 hticket hit =>
    intro hc
    exact absurd hc (by simp [setTaskItem])
  | fail i it msg se sd hit hdl =>
    intro hc
    have hall := ih hc
    have hmem := List.get?_mem hit
    rw [hall it hmem] at hdl
    cases hdl
  | requeue i it hit herr hretry =>
    intro hc
    have hall := ih hc
    have hmem := List.get?_mem hit
    rw [hall it hmem] at herr
    cases herr
  | markFailed i it hit herr hexh hnp =>
    intro hc
    cases hc
  | finish i it tEnd se sd hit hdl =>
    intro hc
    have hall := ih hc
    intro x hx
    rcases mem_of_mem_set hx with rfl | hx2
    · rfl
    · exact hall x hx2
  | completeTask hall =>
    intro _
    exact hall

theorem completedAllDone_rstep {s s' : MState}
    (h : RStep s s') (ih : CompletedAllDone s) : CompletedAllDone s' := by
  cases h with
  | crash =>
    exact ih
  | restartItem i it hit hnd =>
    intro hc
    have hall := ih hc
    have hmem := List.get?_mem hit
    exact absurd (hall it hmem) hnd
  | restartTask hnc =>
    intro hc
    cases hc

/-- Invariance along reachability (restarts included). -/
theorem reach_invariant (cfg : MConfig) {P : MState → Prop}
    (hW : ∀ {a b : MState}, WStep cfg a b → P a → P b)
    (hR : ∀ {a b : MState}, RStep a b → P a → P b)
    {s0 s : MState} (h : Reach cfg s0 s) (h0 : P s0) : P s := by
  induction h with
  | refl => exact h0
  | tail _ hbc ih =>
    rcases hbc with hw | hr
    · exact hW hw ih
    · exact hR hr ih

/-- Invariance along single-run reachability (worker steps only). -/
theorem reachRun_invariant (cfg : MConfig) {P : MState → Prop}
    (hW : ∀ {a b : MState}, WStep cfg a b → P a → P b)
    {s0 s : MState} (h : ReachRun cfg s0 s) (h0 : P s0) : P s := by
  induction h with
  | refl => exact h0
  | tail _ hbc ih => exact hW hbc ih

/-- C1 amended: for every task created by CreateTask, at every reachable
persisted state — states persisted between the individual store updates of a
worker call and states reached after restarts included — `status = completed`
implies that every item's status is `done`.  (The converse direction of the
claimed equivalence is false: see the counterexample, the state persisted by
processQueueItem between an item's done-update and the task-completion
recompute has every item `done` while the task status is still `running`.) -/
theorem c1_completed_implies_all_done (cfg : MConfig) (rb : List Nat)
    (now : Nat) (urls : List String) (s : MState)
    (hreach : Reach cfg (createState rb now urls) s)
    (hc : s.task.status = .completed) :
    ∀ it ∈ s.task.items, it.status = .done :=
  reach_invariant cfg (fun hw ih => completedAllDone_wstep hw ih)
    (fun hr ih => completedAllDone_rstep hr ih) hreach
    (completedAllDone_init rb now urls) hc

/- ----------------------------------------------------------------
C1: concrete trace — one item downloads successfully; the persisted state
after the done-update but before the completion recompute has every item
done while the task is still running.
---------------------------------------------------------------- -/

def c1S0 : MState := createState (List.replicate 16 0) 0 ["http://h/a"]

def c1Item0 : Item := newItem "http://h/a"

def c1ItemDl : Item := { c1Item0 with status := .downloading, startedAt := some 5 }

def c1ItemDone : Item :=
  { c1ItemDl with status := .done, completedAt := some 9, errorMessage := "",
                  sizeExpected := 3, sizeDownloaded := 3 }

def c1S1 : MState :=
  { task := setTaskItem { c1S0.task with status := .running } 0 c1ItemDl,
    tickets := c1S0.tickets.erase 0 }

def c1S2 : MState :=
  { task := setTaskItem c1S1.task 0 c1ItemDone, tickets := c1S1.tickets }

def c1S3 : MState :=
  { task := { c1S2.task with status := .completed }, tickets := c1S2.tickets }

theorem c1_reach_s2 :
    Reach { maxRetryPerItem := 3 } c1S0 c1S2 := by
  have h1 : Step { maxRetryPerItem := 3 } c1S0 c1S1 :=
    Or.inl (WStep.pickup c1S0 0 c1Item0 5 (by decide) rfl)
  have h2 : Step { maxRetryPerItem := 3 } c1S1 c1S2 :=
    Or.inl (WStep.finish c1S1 0 c1ItemDl 9 3 3 rfl rfl)
  exact (Relation.ReflTransGen.single h1).tail h2

theorem c1_reach_s3 :
    Reach { maxRetryPerItem := 3 } c1S0 c1S3 :=
  Relation.ReflTransGen.tail c1_reach_s2
    (Or.inl (WStep.completeTask c1S2 (by decide)))

/-- C1 counterexample: the state `c1S2`, reachable from CreateTask and
persisted by the `Store.UpdateTask` call at part_000 line 263, has every
item `done` while the task status is `running`, so "status = completed ⇔
every item done" is false at a reachable persisted state. -/
theorem c1_completed_iff_counterexample :
    Reach { maxRetryPerItem := 3 } c1S0 c1S2
    ∧ (c1S2.task.items.all fun it => decide (it.status = ItemStatus.done)) = true
    ∧ decide (c1S2.task.status = TaskStatus.completed) = false :=
  ⟨c1_reach_s2, by decide, by decide⟩

/-- Witness for C1's amended theorem at the reachable completed state. -/
theorem c1_completed_implies_all_done_witness :
    (c1S3.task.items.all fun it => decide (it.status = ItemStatus.done)) = true := by
  have h := c1_completed_implies_all_done { maxRetryPerItem := 3 }
    (List.replicate 16 0) 0 ["http://h/a"] c1S3 c1_reach_s3 rfl
  rw [List.all_eq_true]
  intro it hm
  exact decide_eq_true (h it hm)

/- ----------------------------------------------------------------
C4: the attempts bound.  Within one process run the bound
attempts ≤ MaxRetryPerItem + 1 is an invariant; Start()'s requeue of
non-done items with attempts preserved breaks it across restarts.
---------------------------------------------------------------- -/

/-- Single-run inductive invariant: tickets are distinct, every ticketed item
is `queued`, every queued or downloading item still has a retry budget, and
every item obeys the attempts bound. -/
def InvAttempts (cfg : MConfig) (s : MState) : Prop :=
  s.tickets.Nodup
  ∧ (∀ i ∈ s.tickets, ∃ it, s.task.items.get? i = some it ∧ it.status = .queued)
  ∧ ∀ it ∈ s.task.items,
      ((it.status = .queued ∨ it.status = .downloading) →
        it.attempts ≤ cfg.maxRetryPerItem)
      ∧ it.attempts ≤ cfg.maxRetryPerItem + 1

theorem invAttempts_init (cfg : MConfig) (rb : List Nat) (now : Nat)
    (urls : List String) : InvAttempts cfg (createState rb now urls) := by
  refine ⟨by
    show (List.range (List.map newItem urls).length).Nodup
    exact List.nodup_range _, ?_, ?_⟩
  · intro i hi
    have hlen : i < urls.length := by
      simpa [createState, CreateTask] using hi
    refine ⟨newItem (urls.get ⟨i, hlen⟩), ?_, rfl⟩
    show (List.map newItem urls).get? i = _
    rw [List.get?_map, List.get?_eq_get hlen]
    rfl
  · intro it hm
    have hm2 : it ∈ List.map newItem urls := by
      simpa [createState, CreateTask] using hm
    obtain ⟨u, _, rfl⟩ := List.mem_map.mp hm2
    exact ⟨fun _ => Nat.zero_le _, Nat.zero_le _⟩

theorem invAttempts_wstep {cfg : MConfig} {s s' : MState}
    (h : WStep cfg s s') (ih : InvAttempts cfg s) : InvAttempts cfg s' := by
  obtain ⟨nd, tk, at3⟩ := ih
  cases h with
  | pickup i it t0 hticket hit =>
    refine ⟨nd.erase i, ?_, ?_⟩
    · intro j hj
      have hj2 := (List.Nodup.mem_erase_iff nd).mp hj
      obtain ⟨it', hg, hq⟩ := tk j hj2.2
      exact ⟨it', by
        show (s.task.items.set i _).get? j = some it'
        rw [get?_set_other _ _ _ _ fun hh => hj2.1 hh.symm]
        exact hg, hq⟩
    · intro x hx
      rcases mem_of_mem_set hx with rfl | hx2
      · obtain ⟨it2, hg2, hq2⟩ := tk i hticket
        rw [hit] at hg2
        cases hg2
        have hb := (at3 it (List.get?_mem hit)).1 (Or.inl hq2)
        exact ⟨fun _ => hb, Nat.le_succ_of_le hb⟩
      · exact at3 x hx2
  | fail i it msg se sd hit hdl =>
    refine ⟨nd, ?_, ?_⟩
    · intro j hj
      obtain ⟨it', hg, hq⟩ := tk j hj
      by_cases hji : j = i
      · subst hji
        rw [hit] at hg
        cases hg
        rw [hdl] at hq
        cases hq
      · exact ⟨it', by
          show (s.task.items.set i _).get? j = some it'
          rw [get?_set_other _ _ _ _ fun hh => hji hh.symm]
          exact hg, hq⟩
    · intro x hx
      rcases mem_of_mem_set hx with rfl | hx2
      · have hb := (at3 it (List.get?_mem hit)).1 (Or.inr hdl)
        refine ⟨?_, Nat.succ_le_succ hb⟩
        intro hqd
        rcases hqd with hq | hq <;> cases hq
      · exact at3 x hx2
  | requeue i it hit herr hretry =>
    have hiNot : i ∉ s.tickets := by
      intro hi
      obtain ⟨it', hg, hq⟩ := tk i hi
      rw [hit] at hg
      cases hg
      rw [herr] at hq
      cases hq
    refine ⟨?_, ?_, ?_⟩
    · rw [List.nodup_append]
      exact ⟨nd, List.nodup_singleton i, fun a ha hb => by
        rw [List.mem_singleton.mp hb] at ha
        exact hiNot ha⟩
    · intro j hj
      rcases List.mem_append.mp hj with hj1 | hj2
      · have hji : j ≠ i := fun hh => hiNot (hh ▸ hj1)
        obtain ⟨it', hg, hq⟩ := tk j hj1
        exact ⟨it', by
          show (s.task.items.set i _).get? j = some it'
          rw [get?_set_other _ _ _ _ fun hh => hji hh.symm]
          exact hg, hq⟩
      · rw [List.mem_singleton.mp hj2]
        refine ⟨{ it with status := .queued }, ?_, rfl⟩
        show (s.task.items.set i _).get? i = _
        exact get?_set_self _ _ _ (get?_lt_length hit)
    · intro x hx
      rcases mem_of_mem_set hx with rfl | hx2
      · exact ⟨fun _ => hretry, Nat.le_succ_of_le hretry⟩
      · exact at3 x hx2
  | markFailed i it hit herr hexh hnp =>
    exact ⟨nd, tk, at3⟩
  | finish i it tEnd se sd hit hdl =>
    refine ⟨nd, ?_, ?_⟩
    · intro j hj
      obtain ⟨it', hg, hq⟩ := tk j hj
      by_cases hji : j = i
      · subst hji
        rw [hit] at hg
        cases hg
        rw [hdl] at hq
        cases hq
      · exact ⟨it', by
          show (s.task.items.set i _).get? j = some it'
          rw [get?_set_other _ _ _ _ fun hh => hji hh.symm]
          exact hg, hq⟩
    · intro x hx
      rcases mem_of_mem_set hx with rfl | hx2
      · have hb := (at3 it (List.get?_mem hit)).1 (Or.inr hdl)
        refine ⟨?_, Nat.le_succ_of_le hb⟩
        intro hqd
        rcases hqd with hq | hq <;> cases hq
      · exact at3 x hx2
  | completeTask hall =>
    exact ⟨nd, tk, at3⟩

/-- C4 amended: within a single process run — every state reachable from
CreateTask by worker steps alone, with no crash-recovery requeue — every
item satisfies attempts ≤ MaxRetryPerItem + 1.  Across restarts the bound
fails, because Start() requeues non-done items with the attempts counter
preserved and a further failure increments it again (see the
counterexample). -/
theorem c4_attempts_bound_single_run (cfg : MConfig) (rb : List Nat)
    (now : Nat) (urls : List String) (s : MState)
    (hreach : ReachRun cfg (createState rb now urls) s) :
    ∀ it ∈ s.task.items, it.attempts ≤ cfg.maxRetryPerItem + 1 :=
  fun it hm =>
    ((reachRun_invariant cfg (fun hw ih => invAttempts_wstep hw ih) hreach
      (invAttempts_init cfg rb now urls)).2.2 it hm).2

/-- Witness for C4's amended theorem at the creation state itself. -/
theorem c4_attempts_bound_single_run_witness :
    (((createState (List.replicate 16 0) 0 ["http://h/w"]).task.items.all
      fun it => decide (it.attempts ≤ 3 + 1))) = true := by
  have h := c4_attempts_bound_single_run { maxRetryPerItem := 3 }
    (List.replicate 16 0) 0 ["http://h/w"]
    (createState (List.replicate 16 0) 0 ["http://h/w"])
    Relation.ReflTransGen.refl
  rw [List.all_eq_true]
  intro it hm
  exact decide_eq_true (h it hm)

/- Concrete restart trace for the C4 counterexample, with
MaxRetryPerItem = 0: the single item fails once (attempts 1), the process
restarts and requeues it with attempts preserved, and it fails again
(attempts 2 > MaxRetryPerItem + 1). -/

def c4S0 : MState := createState (List.replicate 16 1) 0 ["http://h/b"]

def c4Item0 : Item := newItem "http://h/b"

def c4ItemDl1 : Item := { c4Item0 with status := .downloading, startedAt := some 1 }

def c4ItemErr1 : Item :=
  { c4ItemDl1 with status := .error, attempts := c4ItemDl1.attempts + 1,
                   errorMessage := "bad status: 500 Internal Server Error",
                   sizeExpected := 0, sizeDownloaded := 0 }

def c4ItemQ : Item := requeueReset c4ItemErr1

def c4ItemDl2 : Item := { c4ItemQ with status := .downloading, startedAt := some 7 }

def c4ItemErr2 : Item :=
  { c4ItemDl2 with status := .error, attempts := c4ItemDl2.attempts + 1,
                   errorMessage := "bad status: 500 Internal Server Error",
                   sizeExpected := 0, sizeDownloaded := 0 }

def c4S1 : MState :=
  { task := setTaskItem { c4S0.task with status := .running } 0 c4ItemDl1,
    tickets := c4S0.tickets.erase 0 }

def c4S2 : MState :=
  { task := setTaskItem c4S1.task 0 c4ItemErr1, tickets := c4S1.tickets }

def c4S3 : MState := { task := c4S2.task, tickets := [] }

def c4S4 : MState :=
  { task := setTaskItem c4S3.task 0 (requeueReset c4ItemErr1),
    tickets := c4S3.tickets ++ [0] }

def c4S5 : MState :=
  { task := { c4S4.task with status := .pending }, tickets := c4S4.tickets }

def c4S6 : MState :=
  { task := setTaskItem { c4S5.task with status := .running } 0 c4ItemDl2,
    tickets := c4S5.tickets.erase 0 }

def c4S7 : MState :=
  { task := setTaskItem c4S6.task 0 c4ItemErr2, tickets := c4S6.tickets }

theorem c4_reach_s7 : Reach { maxRetryPerItem := 0 } c4S0 c4S7 := by
  have h1 : Step { maxRetryPerItem := 0 } c4S0 c4S1 :=
    Or.inl (WStep.pickup c4S0 0 c4Item0 1 (by decide) rfl)
  have h2 : Step { maxRetryPerItem := 0 } c4S1 c4S2 :=
    Or.inl (WStep.fail c4S1 0 c4ItemDl1
      "bad status: 500 Internal Server Error" 0 0 rfl rfl)
  have h3 : Step { maxRetryPerItem := 0 } c4S2 c4S3 :=
    Or.inr (RStep.crash c4S2)
  have h4 : Step { maxRetryPerItem := 0 } c4S3 c4S4 :=
    Or.inr (RStep.restartItem c4S3 0 c4ItemErr1 rfl (by decide))
  have h5 : Step { maxRetryPerItem := 0 } c4S4 c4S5 :=
    Or.inr (RStep.restartTask c4S4 (by decide))
  have h6 : Step { maxRetryPerItem := 0 } c4S5 c4S6 :=
    Or.inl (WStep.pickup c4S5 0 c4ItemQ 7 (by decide) rfl)
  have h7 : Step { maxRetryPerItem := 0 } c4S6 c4S7 :=
    Or.inl (WStep.fail c4S6 0 c4ItemDl2
      "bad status: 500 Internal Server Error" 0 0 rfl rfl)
  exact (((((Relation.ReflTransGen.single h1).tail h2).tail h3).tail
    h4).tail h5).tail h6 |>.tail h7

/-- C4 counterexample: with MaxRetryPerItem = 0, the state `c4S7` — reached
by create, download failure, restart (attempts preserved by Start()'s
requeue) and a second failure — is reachable, and its item has attempts 2,
violating attempts ≤ MaxRetryPerItem + 1 = 1. -/
theorem c4_attempts_counterexample :
    Reach { maxRetryPerItem := 0 } c4S0 c4S7
    ∧ (c4S7.task.items.all fun it => decide (it.attempts ≤ 0 + 1)) = false :=
  ⟨c4_reach_s7, by decide⟩

/- ----------------------------------------------------------------
Functional model of one worker call: processQueueItem
(part_000 lines 178-277), retryOrFail (280-307), failItem (310-315).
The environment carries the outcome of every external call (filesystem,
HTTP); the output records every `Store.UpdateTask` persist, whether the
Range header was set, and the mutating filesystem calls issued.
---------------------------------------------------------------- -/

/-- The fields of `*http.Response` the worker reads: `StatusCode`,
`Status` (the status line, e.g. "404 Not Found") and `ContentLength`. -/
structure HttpResponse where
  statusCode : Int
  status : String
  contentLength : Int
deriving DecidableEq, Repr

/-- Outcomes of the external calls made during one worker call, in program
order.  `partStat = some n` models `os.Stat(tmpPath)` succeeding with size
`n`; `none` models a stat error (no `.part` file). -/
structure DownloadEnv where
  now : Nat
  fin : Nat
  mkdirErr : Option String
  partStat : Option Int
  newReqErr : Option String
  doErr : Option String
  resp : HttpResponse
  openErr : Option String
  seekErr : Option String
  copyWritten : Int
  copyErr : Option String
  renameErr : Option String
deriving DecidableEq, Repr

/-- The observable effects of one worker call. -/
structure ProcOut where
  store : TaskMap
  updates : List Task
  rangeHeader : Option Int
  fsWrites : List String

/-- Apply the successive `UpdateTask` persists to the store map. -/
def applyUpdates (store : TaskMap) (updates : List Task) : TaskMap :=
  updates.foldl (fun m t => mapInsert m t.id t) store

/-- The output of a worker call that did nothing. -/
def noEffect (store : TaskMap) : ProcOut :=
  { store := store, updates := [], rangeHeader := none, fsWrites := [] }

/-- retryOrFail (part_000 lines 280-307): increment attempts, set the error
message and the `error` status, persist; when attempts are within
`MaxRetryPerItem` schedule a retry (the timer body, lines 287-291, runs
later and is the `requeue` transition of `WStep`); otherwise, when no item
is queued or downloading, mark the task `failed` and persist again. -/
def retryOrFail (cfg : MConfig) (t : Task) (i : Nat) (it : Item)
    (msg : String) : Task × List Task × Bool :=
  let it1 : Item :=
    { it with attempts := it.attempts + 1, errorMessage := msg,
              status := .error }
  let t1 := setTaskItem t i it1
  if it1.attempts ≤ cfg.maxRetryPerItem then (t1, [t1], true)
  else if t1.items.any (fun j =>
      decide (j.status = ItemStatus.queued ∨ j.status = ItemStatus.downloading))
  then (t1, [t1], false)
  else ({ t1 with status := .failed }, [t1, { t1 with status := .failed }], false)

/-- failItem (part_000 lines 310-315): increment attempts, set the error
message and the `error` status, persist; no retry is scheduled. -/
def failItem (t : Task) (i : Nat) (it : Item) (msg : String) :
    Task × List Task :=
  let it1 : Item :=
    { it with attempts := it.attempts + 1, errorMessage := msg,
              status := .error }
  (setTaskItem t i it1, [setTaskItem t i it1])

theorem toNat_lt_of_inbounds {n : Int} {len : Nat}
    (h : ¬(n < 0 ∨ (len : Int) ≤ n)) : n.toNat < len := by omega

/-- processQueueItem (part_000 lines 178-277), one worker call on the ticket
`(tid, itemIdx)`.  Mirrors the Go control flow:
lookup (lines 179-182); bounds check (183-185); mark running/downloading and
persist (186-191); MkdirAll (194-197, failure goes to failItem); stat of the
`.part` file for the resume offset (202-205); http.NewRequest (207-211);
the Range header when startOffset > 0 (212-214); client.Do (215-219); the
status check (221-224); ContentLength (227-229); OpenFile (232-236); Seek
(237-241); io.Copy with `size_downloaded = startOffset + written` on success
and failure alike (243-251); Rename (254-257); the done-update (259-263) and
the task-completion recompute (266-276). -/
def processQueueItem (cfg : MConfig) (store : TaskMap) (tid : TaskID)
    (itemIdx : Int) (env : DownloadEnv) : ProcOut :=
  match store tid with
  | none => noEffect store
  | some t =>
    if hbound : itemIdx < 0 ∨ (t.items.length : Int) ≤ itemIdx then
      noEffect store
    else
      let i := itemIdx.toNat
      let it := t.items.get ⟨i, toNat_lt_of_inbounds hbound⟩
      let itDl : Item := { it with startedAt := some env.now,
                                   status := .downloading }
      let t1 := setTaskItem { t with status := .running } i itDl
      match env.mkdirErr with
      | some e =>
        let r := failItem t1 i itDl ("mkdir: " ++ e)
        { store := applyUpdates store ([t1] ++ r.2),
          updates := [t1] ++ r.2, rangeHeader := none, fsWrites := ["mkdir"] }
      | none =>
        let startOffset : Int := env.partStat.getD 0
        match env.newReqErr with
        | some e =>
          let r := retryOrFail cfg t1 i itDl e
          { store := applyUpdates store ([t1] ++ r.2.1),
            updates := [t1] ++ r.2.1, rangeHeader := none,
            fsWrites := ["mkdir"] }
        | none =>
          let range : Option Int :=
            if 0 < startOffset then some startOffset else none
          let rest : List Task × List String :=
            match env.doErr with
            | some e => ((retryOrFail cfg t1 i itDl e).2.1, [])
            | none =>
              if ¬(env.resp.statusCode = 200 ∨ env.resp.statusCode = 206) then
                ((retryOrFail cfg t1 i itDl
                  ("bad status: " ++ env.resp.status)).2.1, [])
              else
                let itCl : Item :=
                  if 0 < env.resp.contentLength then
                    { itDl with
                        sizeExpected := startOffset + env.resp.contentLength }
                  else itDl
                let t2 := setTaskItem t1 i itCl
                match env.openErr with
                | some e => ((retryOrFail cfg t2 i itCl e).2.1, ["open"])
                | none =>
                  match env.seekErr with
                  | some e => ((retryOrFail cfg t2 i itCl e).2.1, ["open"])
                  | none =>
                    let itSd : Item :=
                      { itCl with
                          sizeDownloaded := startOffset + env.copyWritten }
                    let t3 := setTaskItem t2 i itSd
                    match env.copyErr with
                    | some e =>
                      ((retryOrFail cfg t3 i itSd e).2.1, ["open", "write"])
                    | none =>
                      match env.renameErr with
                      | some e =>
                        ((retryOrFail cfg t3 i itSd e).2.1,
                          ["open", "write", "rename"])
                      | none =>
                        let itDone : Item :=
                          { itSd with completedAt := some env.fin,
                                      status := .done, errorMessage := "" }
                        let t4 := setTaskItem t3 i itDone
                        if t4.items.all
                            (fun j => decide (j.status = ItemStatus.done))
                        then ([t4, { t4 with status := .completed }],
                          ["open", "write", "rename"])
                        else ([t4], ["open", "write", "rename"])
          { store := applyUpdates store ([t1] ++ rest.1),
            updates := [t1] ++ rest.1, rangeHeader := range,
            fsWrites := ["mkdir"] ++ rest.2 }

/-- The item at position `i` in the last persisted task of a worker call. -/
def itemAfter (out : ProcOut) (i : Nat) : Option Item :=
  out.updates.getLast?.bind fun t => t.items.get? i

/-- C10: a dequeued ticket whose task id is not in the store, or whose item
index is negative or at least the task's item count, makes processQueueItem
return immediately: no store update, no task or item mutation, no Range
request, no filesystem operation (and, in the embedding, no out-of-bounds
access — the typed index carries its bound). -/
theorem c10_invalid_ticket (cfg : MConfig) (store : TaskMap) (tid : TaskID)
    (itemIdx : Int) (env : DownloadEnv)
    (h : store tid = none ∨ itemIdx < 0
      ∨ ∀ t, store tid = some t → (t.items.length : Int) ≤ itemIdx) :
    processQueueItem cfg store tid itemIdx env = noEffect store := by
  cases hs : store tid with
  | none =>
    simp [processQueueItem, hs]
  | some t =>
    rcases h with h | h | h
    · rw [hs] at h
      cases h
    · simp only [processQueueItem, hs]
      rw [dif_pos (Or.inl h)]
    · simp only [processQueueItem, hs]
      rw [dif_pos (Or.inr (h t hs))]

/-- Witness for C10: an unknown task id on an empty store. -/
theorem c10_invalid_ticket_witness :
    emptyTaskMap "nope" = none
    ∧ processQueueItem { maxRetryPerItem := 3 } emptyTaskMap "nope" 0
        { now := 0, fin := 0, mkdirErr := none, partStat := none,
          newReqErr := none, doErr := none,
          resp := { statusCode := 200, status := "200 OK", contentLength := 0 },
          openErr := none, seekErr := none, copyWritten := 0, copyErr := none,
          renameErr := none }
        = noEffect emptyTaskMap :=
  ⟨rfl,
    c10_invalid_ticket { maxRetryPerItem := 3 } emptyTaskMap "nope" 0
      { now := 0, fin := 0, mkdirErr := none, partStat := none,
        newReqErr := none, doErr := none,
        resp := { statusCode := 200, status := "200 OK", contentLength := 0 },
        openErr := none, seekErr := none, copyWritten := 0, copyErr := none,
        renameErr := none }
      (Or.inl rfl)⟩

theorem retryOrFail_updates_ne_nil (cfg : MConfig) (t : Task) (i : Nat)
    (it : Item) (msg : String) : (retryOrFail cfg t i it msg).2.1 ≠ [] := by
  unfold retryOrFail
  dsimp only
  split_ifs <;> simp

/-- The last task retryOrFail persists carries, at position `i`, the failed
item: attempts incremented, the message set, status `error`. -/
theorem retryOrFail_last_item (cfg : MConfig) (t : Task) (i : Nat) (it : Item)
    (msg : String) (hlt : i < t.items.length) :
    ((retryOrFail cfg t i it msg).2.1.getLast?.bind fun tt => tt.items.get? i)
      = some { it with attempts := it.attempts + 1, errorMessage := msg,
                       status := .error } := by
  unfold retryOrFail
  dsimp only
  split_ifs <;>
    simp [setTaskItem] <;>
    (rw [← List.get?_eq_getElem?]; exact get?_set_self _ _ _ hlt)

theorem getLast?_append_of_ne_nil {α} (l₁ l₂ : List α) (h : l₂ ≠ []) :
    (l₁ ++ l₂).getLast? = l₂.getLast? := by
  rw [List.getLast?_append]
  obtain ⟨x, hx⟩ := Option.isSome_iff_exists.mp (List.getLast?_isSome.mpr h)
  rw [hx]
  rfl

/-- C6: when a worker processes a valid ticket and MkdirAll and
http.NewRequest succeed: a `Range: bytes=<startOffset>-` header is sent
exactly when the pre-existing `.part` file's size `startOffset` (0 when the
stat fails) is positive; a response status other than 200 and 206 fails the
attempt, leaving the finally-persisted item in `error` with message
`"bad status: <status>"` and attempts incremented; a declared
Content-Length L > 0 makes the finally-persisted item carry
`size_expected = startOffset + L`; and whenever the copy runs (open and
seek succeeded) the finally-persisted item carries
`size_downloaded = startOffset + written`, on success and failure of the
copy alike. -/
theorem c6_worker_download (cfg : MConfig) (store : TaskMap) (tid : TaskID)
    (i : Nat) (env : DownloadEnv) (t : Task) (it : Item)
    (hstore : store tid = some t)
    (hit : t.items.get? i = some it)
    (hmkdir : env.mkdirErr = none)
    (hreq : env.newReqErr = none) :
    (processQueueItem cfg store tid (i : Int) env).rangeHeader
        = (if 0 < env.partStat.getD 0 then some (env.partStat.getD 0) else none)
    ∧ (env.doErr = none →
        ¬(env.resp.statusCode = 200 ∨ env.resp.statusCode = 206) →
        itemAfter (processQueueItem cfg store tid (i : Int) env) i
          = some { it with startedAt := some env.now, status := .error,
                           attempts := it.attempts + 1,
                           errorMessage := "bad status: " ++ env.resp.status })
    ∧ (env.doErr = none →
        (env.resp.statusCode = 200 ∨ env.resp.statusCode = 206) →
        0 < env.resp.contentLength →
        (itemAfter (processQueueItem cfg store tid (i : Int) env) i).map
            Item.sizeExpected
          = some (env.partStat.getD 0 + env.resp.contentLength))
    ∧ (env.doErr = none →
        (env.resp.statusCode = 200 ∨ env.resp.statusCode = 206) →
        env.openErr = none → env.seekErr = none →
        (itemAfter (processQueueItem cfg store tid (i : Int) env) i).map
            Item.sizeDownloaded
          = some (env.partStat.getD 0 + env.copyWritten)) := by
  obtain ⟨now, fin, mkdirErr, partStat, newReqErr, doErr, resp, openErr,
    seekErr, copyWritten, copyErr, renameErr⟩ := env
  dsimp only at hmkdir hreq ⊢
  subst hmkdir
  subst hreq
  have hlt := get?_lt_length hit
  have hbound : ¬((i : Int) < 0 ∨ (t.items.length : Int) ≤ (i : Int)) := by
    omega
  have hg : ∀ h : i < t.items.length, t.items.get ⟨i, h⟩ = it := by
    intro h
    rw [List.get?_eq_get h] at hit
    exact Option.some_inj.mp hit
  refine ⟨?_, ?_, ?_, ?_⟩
  · simp only [processQueueItem, hstore]
    rw [dif_neg hbound]
  · intro hdo hbad
    subst hdo
    simp only [processQueueItem, hstore]
    rw [dif_neg hbound]
    dsimp only [itemAfter, Int.toNat_natCast]
    rw [hg (by simpa using hlt), if_pos hbad]
    dsimp only
    rw [getLast?_append_of_ne_nil _ _ (retryOrFail_updates_ne_nil _ _ _ _ _)]
    exact retryOrFail_last_item cfg _ i _ _ (by simpa [setTaskItem] using hlt)
  · intro hdo hgood hcl
    subst hdo
    simp only [processQueueItem, hstore]
    rw [dif_neg hbound]
    dsimp only [itemAfter, Int.toNat_natCast]
    rw [hg (by simpa using hlt), if_neg (not_not_intro hgood), if_pos hcl]
    cases openErr with
    | some e =>
      dsimp only
      rw [getLast?_append_of_ne_nil _ _ (retryOrFail_updates_ne_nil _ _ _ _ _),
        retryOrFail_last_item cfg _ i _ _ (by simpa [setTaskItem] using hlt)]
      rfl
    | none =>
      cases seekErr with
      | some e =>
        dsimp only
        rw [getLast?_append_of_ne_nil _ _ (retryOrFail_updates_ne_nil _ _ _ _ _),
          retryOrFail_last_item cfg _ i _ _ (by simpa [setTaskItem] using hlt)]
        rfl
      | none =>
        cases copyErr with
        | some e =>
          dsimp only
          rw [getLast?_append_of_ne_nil _ _ (retryOrFail_updates_ne_nil _ _ _ _ _),
            retryOrFail_last_item cfg _ i _ _ (by simpa [setTaskItem] using hlt)]
          rfl
        | none =>
          cases renameErr with
          | some e =>
            dsimp only
            rw [getLast?_append_of_ne_nil _ _ (retryOrFail_updates_ne_nil _ _ _ _ _),
              retryOrFail_last_item cfg _ i _ _ (by simpa [setTaskItem] using hlt)]
            rfl
          | none =>
            dsimp only
            split_ifs with hall <;>
              (simp only [setTaskItem, List.singleton_append,
                List.getLast?_cons_cons, List.getLast?_singleton,
                Option.some_bind]
               rw [get?_set_self _ _ _ (by simpa [setTaskItem] using hlt)]
               rfl)
  · intro hdo hgood hopen hseek
    subst hdo
    subst hopen
    subst hseek
    simp only [processQueueItem, hstore]
    rw [dif_neg hbound]
    dsimp only [itemAfter, Int.toNat_natCast]
    rw [hg (by simpa using hlt), if_neg (not_not_intro hgood)]
    cases copyErr with
    | some e =>
      dsimp only
      rw [getLast?_append_of_ne_nil _ _ (retryOrFail_updates_ne_nil _ _ _ _ _),
        retryOrFail_last_item cfg _ i _ _ (by simpa [setTaskItem] using hlt)]
      rfl
    | none =>
      cases renameErr with
      | some e =>
        dsimp only
        rw [getLast?_append_of_ne_nil _ _ (retryOrFail_updates_ne_nil _ _ _ _ _),
          retryOrFail_last_item cfg _ i _ _ (by simpa [setTaskItem] using hlt)]
        rfl
      | none =>
        dsimp only
        split_ifs with hall <;>
          (simp only [setTaskItem, List.singleton_append,
            List.getLast?_cons_cons, List.getLast?_singleton,
            Option.some_bind]
           rw [get?_set_self _ _ _ (by simpa [setTaskItem] using hlt)]
           rfl)

def c6It : Item :=
  { url := "u", fileName := "f", status := .queued, attempts := 0,
    errorMessage := "", sizeExpected := 0, sizeDownloaded := 0,
    startedAt := none, completedAt := none }

def c6Task : Task :=
  { id := "t1", createdAt := 0, status := .pending, items := [c6It] }

def c6Store : TaskMap := mapInsert emptyTaskMap "t1" c6Task

def c6Env : DownloadEnv :=
  { now := 1, fin := 2, mkdirErr := none, partStat := some 5,
    newReqErr := none, doErr := none,
    resp := { statusCode := 206, status := "206 Partial Content",
              contentLength := 7 },
    openErr := none, seekErr := none, copyWritten := 3, copyErr := none,
    renameErr := none }

/-- Witness for C6: a resumed download (offset 5, Content-Length 7,
3 bytes copied) sends `Range: bytes=5-`, records `size_expected = 12` and
`size_downloaded = 8`. -/
theorem c6_worker_download_witness :
    (processQueueItem { maxRetryPerItem := 3 } c6Store "t1" 0 c6Env).rangeHeader
        = some 5
    ∧ (itemAfter (processQueueItem { maxRetryPerItem := 3 } c6Store "t1" 0
        c6Env) 0).map Item.sizeExpected = some 12
    ∧ (itemAfter (processQueueItem { maxRetryPerItem := 3 } c6Store "t1" 0
        c6Env) 0).map Item.sizeDownloaded = some 8 := by
  have h := c6_worker_download { maxRetryPerItem := 3 } c6Store "t1" 0 c6Env
    c6Task c6It (by decide) rfl rfl rfl
  exact ⟨h.1.trans (by decide),
    (h.2.2.1 rfl (Or.inr rfl) (by decide)).trans (by decide),
    (h.2.2.2 rfl (Or.inr rfl) rfl rfl).trans (by decide)⟩

end TaskService
